import Mathlib

/-!
Verification of the investment-record manager (`investment_system.py`).

The development shallowly embeds the core of the program:

* the filename sanitizer `sanitize_filename`,
* the file store (`save_uploaded_file`, `get_file_objects`,
  `delete_project_files`, the file-moving loop of stage updates),
* the record store and manager operations (`add_project`,
  `update_project_stage`, `delete_project`, `get_projects_by_stage`,
  `get_project_detail`).

Modelling conventions:

* Python strings are Lean `String`s (sequences of Unicode code points).
* The database is a list of `Project` rows; the first row matching an id
  plays the role of `query(...).filter(Project.id == pid).first()`.
* The filesystem is the set of files below the storage root, represented
  as a `List String` of relative paths.  Directories are implicit: a
  directory "exists" exactly when some file lies below it, so creating an
  empty directory (`mkdir`) and removing an empty directory (`rmdir`) do
  not change the representation.  `shutil.move` is modelled with POSIX
  `rename` semantics: renaming a path to itself is a successful no-op.
* Timestamps (`create_time`, `update_time`, and the `datetime.now()`
  strftime used in file names) are not modelled as clock reads; where a
  timestamp enters a file name it is an explicit parameter.
* Failures of the persistence layer (a raising `commit`) are injected
  through an explicit `dbFail : Bool` oracle placed at the commit point of
  the `get_db` context manager; the `except` branch of each manager
  operation then produces the corresponding error message while the
  session rollback leaves the database rows unchanged.
* I/O failure inside `save_uploaded_file`'s `try` block is injected
  through an `ioFail : Bool` oracle; the handler returns `None`.
-/

/-! ## Character classes of the sanitizer

`sanitize_filename` uses `re.sub(r'[^\w一-鿿\-_. ]', '', name)` and
`re.sub(r'[^\w.]', '', ext)`.  In Python's `re`, `\w` matches a character
`c` with `c.isalnum() or c == '_'` (`SRE_UNI_IS_WORD`).  `pyIsAlnum`
models Unicode `str.isalnum` on the character blocks this development
evaluates on: ASCII digits and letters, Latin-1/Latin-Extended letters,
kana, and the CJK unified ideographs. -/

def pyIsAlnum (c : Char) : Bool :=
  let n := c.toNat
  (48 ≤ n && n ≤ 57) || (65 ≤ n && n ≤ 90) || (97 ≤ n && n ≤ 122) ||
  (0xC0 ≤ n && n ≤ 0x24F && !(n == 0xD7) && !(n == 0xF7)) ||
  (0x3040 ≤ n && n ≤ 0x30FF) ||
  (0x4E00 ≤ n && n ≤ 0x9FFF)

/-- Python regex `\w` (Unicode word character): alphanumeric or underscore. -/
def pyIsWord (c : Char) : Bool :=
  pyIsAlnum c || c == '_'

/-- The explicit `一-鿿` range of the stem character class. -/
def isCJK (c : Char) : Bool :=
  0x4E00 ≤ c.toNat && c.toNat ≤ 0x9FFF

/-- Characters kept in the stem: the complement of `[^\w一-鿿\-_. ]`. -/
def keepStem (c : Char) : Bool :=
  pyIsWord c || isCJK c || c == '-' || c == '_' || c == '.' || c == ' '

/-- Characters kept in the extension: the complement of `[^\w.]`. -/
def keepExt (c : Char) : Bool :=
  pyIsWord c || c == '.'

/-! ## Path helpers -/

/-- Index of the last occurrence of `c` in `l` (Python `str.rfind`, with
`none` for the `-1` result). -/
def lastIdxOf : List Char → Char → Option Nat
  | [], _ => none
  | a :: rest, c =>
    match lastIdxOf rest c with
    | some i => some (i + 1)
    | none => if a == c then some 0 else none

/-- `os.path.splitext` (POSIX form): split at the last dot, unless every
character between the last path separator and that dot is itself a dot
(leading dots of a basename never start an extension). -/
def splitext (p : String) : String × String :=
  let l := p.data
  match lastIdxOf l '.' with
  | none => (p, "")
  | some d =>
    let start :=
      match lastIdxOf l '/' with
      | none => some 0
      | some s => if s < d then some (s + 1) else none
    match start with
    | none => (p, "")
    | some st =>
      if ((l.drop st).take (d - st)).any (fun c => !(c == '.')) then
        (String.mk (l.take d), String.mk (l.drop d))
      else (p, "")

/-- `pathlib.Path(p).name` for the relative paths handled here: the part
after the last `/` (such paths never end in a separator). -/
def pathName (s : String) : String :=
  match lastIdxOf s.data '/' with
  | none => s
  | some i => String.mk (s.data.drop (i + 1))

/-- The first path component of a relative path `stage/id/filename`. -/
def stageSeg (p : String) : String :=
  String.mk (p.data.takeWhile (fun c => !(c == '/')))

/-- The second path component of a relative path `stage/id/filename`. -/
def idSeg (p : String) : String :=
  String.mk (((p.data.dropWhile (fun c => !(c == '/'))).drop 1).takeWhile
    (fun c => !(c == '/')))

/-- A string free of the path separator. -/
def noSlash (s : String) : Bool :=
  !(s.data.contains '/')

/-- A lowercase hexadecimal digit, as produced by `uuid4().hex`. -/
def isLowerHex (c : Char) : Bool :=
  ('0' ≤ c && c ≤ '9') || ('a' ≤ c && c ≤ 'f')

/-! ## The filename sanitizer (`sanitize_filename`, lines 101-112) -/

def sanitize_filename (filename : String) : String :=
  if filename = "" then "unnamed_file.bin"
  else
    let ne := splitext filename
    let safe_name := ne.1.data.filter keepStem
    let safe_ext := ne.2.data.filter keepExt
    let safe_name := if safe_name = [] then "unnamed_file".data else safe_name
    let safe_ext := if safe_ext = [] then ".bin".data else safe_ext
    String.mk (safe_name ++ safe_ext)

/-! ## Sanitizer behaviour as the spec words it (for comparison)

Modelled from the spec: "Strips from the stem every character that is not
alphanumeric, not a CJK ideograph, not one of `-_. `; strips from the
extension every character that is not alphanumeric or `.`." -/

/-- Spec's stem class: alphanumeric, CJK ideograph, or one of `-`, `_`,
`.`, space. -/
def specKeepStem (c : Char) : Bool :=
  pyIsAlnum c || isCJK c || c == '-' || c == '_' || c == '.' || c == ' '

/-- Spec's extension class: alphanumeric or `.`. -/
def specKeepExt (c : Char) : Bool :=
  pyIsAlnum c || c == '.'

/-- Modelled from the spec: the sanitizer exactly as §4.2 words it. -/
def sanitize_spec (filename : String) : String :=
  let ne := splitext filename
  let safe_name := ne.1.data.filter specKeepStem
  let safe_ext := ne.2.data.filter specKeepExt
  let safe_name := if safe_name = [] then "unnamed_file".data else safe_name
  let safe_ext := if safe_ext = [] then ".bin".data else safe_ext
  String.mk (safe_name ++ safe_ext)

/-- Amended extension class: alphanumeric, underscore, or `.`. -/
def specKeepExtAmended (c : Char) : Bool :=
  pyIsAlnum c || c == '_' || c == '.'

/-- Modelled from the spec as amended: the extension additionally keeps
the underscore. -/
def sanitize_spec_amended (filename : String) : String :=
  let ne := splitext filename
  let safe_name := ne.1.data.filter specKeepStem
  let safe_ext := ne.2.data.filter specKeepExtAmended
  let safe_name := if safe_name = [] then "unnamed_file".data else safe_name
  let safe_ext := if safe_ext = [] then ".bin".data else safe_ext
  String.mk (safe_name ++ safe_ext)

/-! ## Filesystem model

The files below the storage root (plus the upload temp files handed over
by the UI), as a list of path strings with membership semantics. -/

/-- `shutil.copy2` (overwriting copy): the destination is present
afterwards, everything else untouched, the source untouched. -/
def fsAdd (p : String) (fs : List String) : List String :=
  if fs.contains p then fs else p :: fs

/-- `shutil.move` via POSIX `rename`: renaming a path to itself is a
successful no-op; otherwise the source disappears and the destination
(replacing any previous file there) appears. -/
def fsMove (src dst : String) (fs : List String) : List String :=
  if src == dst then fs
  else dst :: fs.filter (fun q => !(q == src) && !(q == dst))

/-! ## Data model -/

/-- One row of the `projects` table.  `create_time`/`update_time` are
clock reads and are not modelled. -/
structure Project where
  id : String
  name : String
  stage : String
  project_type : String
  industry : String
  industry_code : String
  financial_data : String
  team : String
  business_model : String
  core_resource : String
  market_share : String
  business_outlook : String
  other_info : String
  remark : String
  marked : String
  files : List String
deriving DecidableEq

/-- The `project_data` dictionary handed to `add_project`; each field is
the `.get(key, "")` of the corresponding display-label key. -/
structure ProjectData where
  name : String
  project_type : String
  industry : String
  industry_code : String
  financial_data : String
  team : String
  business_model : String
  core_resource : String
  market_share : String
  business_outlook : String
  other_info : String
deriving DecidableEq

/-- Combined persistent state: database rows plus filesystem. -/
structure OpState where
  db : List Project
  fs : List String
deriving DecidableEq

/-- An uploaded file object as gradio hands it over (`file.name` is the
path of the temp file holding the upload). -/
structure UploadedFile where
  name : String
deriving DecidableEq

/-- One entry of the `files` argument of `add_project`, bundling the
model parameters of its `save_uploaded_file` call: the `datetime.now()`
timestamp string and the I/O-failure oracle of the `try` block. -/
structure IncomingFile where
  file : Option UploadedFile
  timestamp : String
  ioFail : Bool
deriving DecidableEq

/-- Observable steps of `add_project`, for the order-of-operations
property: a completed attachment write, and the insertion of the row. -/
inductive Event where
  | saveFile : String → Event
  | dbInsert : Event
deriving DecidableEq

/-- Placeholder for the `str(e)` of an injected persistence failure. -/
def dbError : String := "database error"

/-! ## File store -/

/-- `save_uploaded_file` (lines 114-136).  `ts` is the strftime timestamp,
`ioFail` injects an exception into the `try` block (the handler logs and
returns `None`). -/
def save_uploaded_file (file : Option UploadedFile) (stage project_id : String)
    (ts : String) (ioFail : Bool) (fs : List String) : Option String × List String :=
  match file with
  | none => (none, fs)
  | some f =>
    if ioFail then (none, fs)
    else
      let relative_dir := stage ++ "/" ++ project_id
      let orig_name := pathName f.name
      let safe_name := sanitize_filename orig_name
      let file_name := ts ++ "_" ++ safe_name
      let rel := relative_dir ++ "/" ++ file_name
      (some rel, fsAdd rel fs)

/-- `get_file_objects` (lines 138-147): keep the paths whose target still
exists on disk. -/
def get_file_objects (fs : List String) (file_paths : List String) : List String :=
  file_paths.filter (fun rel => fs.contains rel)

/-- The `for rel_path in project.files: os.remove(...)` loop of
`delete_project_files`. -/
def removeFilesLoop (files : List String) (fs : List String) : List String :=
  match files with
  | [] => fs
  | rel :: rest => removeFilesLoop rest (fs.filter (fun q => !(q == rel)))

/-- A path `q` lying below the directory `dir` (with `dir` ending in the
separator): string-prefix test on the code points. -/
def pathUnder (dir q : String) : Bool :=
  dir.data.isPrefixOf q.data

/-- `delete_project_files` (lines 149-165): nothing happens when the
record lists no files; otherwise every listed file is removed and then the
record's `stage/id` directory is removed recursively (`shutil.rmtree`). -/
def delete_project_files (fs : List String) (project : Project) : List String :=
  if project.files.isEmpty then fs
  else
    let fs1 := removeFilesLoop project.files fs
    fs1.filter (fun q => !(pathUnder (project.stage ++ "/" ++ project.id ++ "/") q))

/-- The `for rel_path in project.files` relocation loop of
`update_project_stage` (lines 240-249): files whose old path still exists
are moved to `new_stage/project_id/filename` and collected; missing files
are dropped. -/
def moveFilesLoop (files : List String) (fs : List String)
    (new_stage project_id : String) : List String × List String :=
  match files with
  | [] => ([], fs)
  | rel :: rest =>
    if fs.contains rel then
      let file_name := pathName rel
      let new_rel := new_stage ++ "/" ++ project_id ++ "/" ++ file_name
      let fs' := fsMove rel new_rel fs
      let r := moveFilesLoop rest fs' new_stage project_id
      (new_rel :: r.1, r.2)
    else
      moveFilesLoop rest fs new_stage project_id

/-! ## Record store -/

/-- `db.query(Project).filter(Project.id == pid).first()`. -/
def findProject : List Project → String → Option Project
  | [], _ => none
  | p :: rest, pid => if p.id == pid then some p else findProject rest pid

/-- Committing the mutation of the ORM object returned by `first()`:
the first row matching the id is replaced. -/
def replaceById : List Project → String → Project → List Project
  | [], _, _ => []
  | q :: rest, pid, p' =>
    if q.id == pid then p' :: rest else q :: replaceById rest pid p'

/-- `db.delete(project)` for the object returned by `first()`: the first
row matching the id is removed. -/
def deleteRow : List Project → String → List Project
  | [], _ => []
  | q :: rest, pid => if q.id == pid then rest else q :: deleteRow rest pid

/-- Primary-key uniqueness of the `id` column. -/
def uniqueIds : List Project → Bool
  | [] => true
  | p :: rest => !(rest.any (fun q => q.id == p.id)) && uniqueIds rest

/-! ## Project manager -/

/-- `ProjectManager.generate_project_id` (lines 169-172): `proj_` plus the
first eight characters of `uuid4().hex` (the hex digest is a model
parameter). -/
def generate_project_id (uuidHex : String) : String :=
  String.mk ("proj_".data ++ uuidHex.data.take 8)

/-- The file-saving loop of `add_project` (lines 201-207): entries that
are `None` are skipped; each other entry is saved and, when a relative
path comes back, collected.  The third component records the observable
events: one `saveFile` per completed write. -/
def saveLoop (incoming : List IncomingFile) (stage project_id : String)
    (fs : List String) : List String × List String × List Event :=
  match incoming with
  | [] => ([], fs, [])
  | inc :: rest =>
    match inc.file with
    | none => saveLoop rest stage project_id fs
    | some f =>
      let r := save_uploaded_file (some f) stage project_id inc.timestamp inc.ioFail fs
      let rr := saveLoop rest stage project_id r.2
      match r.1 with
      | some p => (p :: rr.1, rr.2.1, Event.saveFile p :: rr.2.2)
      | none => (rr.1, rr.2.1, rr.2.2)

/-- `ProjectManager.add_project` (lines 174-213).  An empty name is
rejected before anything else happens; otherwise the files are saved,
the row is added, and the transaction commits (`dbFail` injects a
failing commit: rollback drops the row, the saved files stay). -/
def add_project (st : OpState) (stage : String) (project_data : ProjectData)
    (remark marked : String) (files : List IncomingFile) (uuidHex : String)
    (dbFail : Bool) : String × OpState × List Event :=
  if project_data.name = "" then
    ("❌ 新增失败：项目名称不能为空", st, [])
  else
    let project_id := generate_project_id uuidHex
    let sv := saveLoop files stage project_id st.fs
    let project : Project :=
      { id := project_id
        name := project_data.name
        stage := stage
        project_type := project_data.project_type
        industry := project_data.industry
        industry_code := project_data.industry_code
        financial_data := project_data.financial_data
        team := project_data.team
        business_model := project_data.business_model
        core_resource := project_data.core_resource
        market_share := project_data.market_share
        business_outlook := project_data.business_outlook
        other_info := project_data.other_info
        remark := remark
        marked := marked
        files := sv.1 }
    let trace := sv.2.2 ++ [Event.dbInsert]
    if dbFail then
      ("❌ 新增失败：" ++ dbError, { db := st.db, fs := sv.2.1 }, trace)
    else
      ("✅ 项目「" ++ project_data.name ++ "」新增成功！ID：" ++ project_id,
        { db := st.db ++ [project], fs := sv.2.1 }, trace)

/-- `ProjectManager.delete_project` (lines 215-227). -/
def delete_project (st : OpState) (project_id : String) (dbFail : Bool) :
    String × OpState :=
  match findProject st.db project_id with
  | none => ("❌ 项目不存在", st)
  | some project =>
    let fs' := delete_project_files st.fs project
    if dbFail then
      ("❌ 删除失败：" ++ dbError, { db := st.db, fs := fs' })
    else
      ("✅ 项目「" ++ project.name ++ "」已删除！",
        { db := deleteRow st.db project_id, fs := fs' })

/-- `ProjectManager.update_project_stage` (lines 229-260).  The removal of
the old `stage/id` directory fires only when that directory is empty; in
the file-set model an empty directory has no representation, so the
`rmdir` is a no-op. -/
def update_project_stage (st : OpState) (project_id new_stage : String)
    (dbFail : Bool) : String × OpState :=
  match findProject st.db project_id with
  | none => ("❌ 项目不存在", st)
  | some project =>
    let old_stage := project.stage
    let moved :=
      if project.files.isEmpty then (project.files, st.fs)
      else moveFilesLoop project.files st.fs new_stage project_id
    let project' := { project with stage := new_stage, files := moved.1 }
    if dbFail then
      ("❌ 阶段更新失败：" ++ dbError, { db := st.db, fs := moved.2 })
    else
      ("✅ 项目已从「" ++ old_stage ++ "」移至「" ++ new_stage ++ "」",
        { db := replaceById st.db project_id project', fs := moved.2 })

/-- One row of the summary list produced by `get_projects_by_stage`. -/
structure ProjectSummary where
  id : String
  name : String
  marked : String
  remark : String
  files : List String
deriving DecidableEq

/-- `ProjectManager.get_projects_by_stage` (lines 262-283): a projection
of the rows of one stage; on any error the handler logs and returns the
empty list.  The `update_time` ordering and the 100-row cap concern the
unmodelled timestamps and are elided. -/
def get_projects_by_stage (st : OpState) (stage : String) (dbFail : Bool) :
    List ProjectSummary :=
  if dbFail then []
  else
    (st.db.filter (fun p => p.stage == stage)).map (fun p =>
      { id := p.id
        name := p.name
        marked := p.marked
        remark := if p.remark = "" then "无" else p.remark
        files := p.files })

/-- The formatted detail report (lines 293-321), with the box-drawing
decoration elided; every data field appears in source order. -/
def detailText (p : Project) : String :=
  "项目详细信息\n" ++
  "项目ID：" ++ p.id ++ "\n" ++
  "项目名称：" ++ p.name ++ "\n" ++
  "当前阶段：" ++ p.stage ++ "\n" ++
  "标注状态：" ++ (if p.marked = "highlight" then "🔆 醒目" else "⚪ 普通") ++ "\n" ++
  "项目类型：" ++ (if p.project_type = "" then "未填写" else p.project_type) ++ "\n" ++
  "所属行业：" ++ (if p.industry = "" then "未填写" else p.industry) ++
  "（代码：" ++ (if p.industry_code = "" then "无" else p.industry_code) ++ "）\n" ++
  "财务数据：" ++ (if p.financial_data = "" then "未填写" else p.financial_data) ++ "\n" ++
  "项目团队：" ++ (if p.team = "" then "未填写" else p.team) ++ "\n" ++
  "商业模式：" ++ (if p.business_model = "" then "未填写" else p.business_model) ++ "\n" ++
  "核心资源：" ++ (if p.core_resource = "" then "未填写" else p.core_resource) ++ "\n" ++
  "市场占有率：" ++ (if p.market_share = "" then "未填写" else p.market_share) ++ "\n" ++
  "商业展望：" ++ (if p.business_outlook = "" then "未填写" else p.business_outlook) ++ "\n" ++
  "备注：" ++ (if p.remark = "" then "无" else p.remark) ++ "\n" ++
  "附件数量：" ++ toString p.files.length

/-- `ProjectManager.get_project_detail` (lines 285-325). -/
def get_project_detail (st : OpState) (project_id : String) (dbFail : Bool) :
    String × List String :=
  if dbFail then ("❌ 查询失败：" ++ dbError, [])
  else
    match findProject st.db project_id with
    | none => ("❌ 项目不存在", [])
    | some proj => (detailText proj, get_file_objects st.fs proj.files)

/-- The pair (new attachment list, new filesystem) computed inside
`update_project_stage` (identical to its inline `if`). -/
def movedPair (p : Project) (fs : List String) (new_stage pid : String) :
    List String × List String :=
  if p.files.isEmpty then (p.files, fs) else moveFilesLoop p.files fs new_stage pid

/-- The mutated ORM object of `update_project_stage`. -/
def movedProject (p : Project) (fs : List String) (new_stage pid : String) : Project :=
  { p with stage := new_stage, files := (movedPair p fs new_stage pid).1 }

/-! ## Helper lemmas -/

theorem keepStem_eq_spec (c : Char) : keepStem c = specKeepStem c := by
  unfold keepStem specKeepStem pyIsWord
  cases h1 : pyIsAlnum c <;> cases h2 : isCJK c <;> cases h3 : c == '-' <;>
    cases h4 : c == '_' <;> cases h5 : c == '.' <;> cases h6 : c == ' ' <;>
    simp [h1, h2, h3, h4, h5, h6]

theorem keepExt_eq_specAmended (c : Char) : keepExt c = specKeepExtAmended c := by
  unfold keepExt specKeepExtAmended pyIsWord
  cases h1 : pyIsAlnum c <;> cases h2 : c == '_' <;> cases h3 : c == '.' <;>
    simp [h1, h2, h3]

theorem keepStem_not_sep (c : Char) (h : keepStem c = true) :
    c ≠ '/' ∧ c ≠ '\\' := by
  constructor <;> rintro rfl <;> revert h <;> decide

theorem keepExt_not_sep (c : Char) (h : keepExt c = true) :
    c ≠ '/' ∧ c ≠ '\\' := by
  constructor <;> rintro rfl <;> revert h <;> decide

theorem head_append_lit {a : String} (b : String) {c : Char}
    (h : a.data.head? = some c) : (a ++ b).data.head? = some c := by
  rw [String.data_append]
  cases hd : a.data with
  | nil => rw [hd] at h; cases h
  | cons x xs =>
    rw [hd] at h
    simpa using h

/-! ## C5: the sanitizer's character classes -/

/-- C5 counterexample: on `"a.b_c"` the code keeps the underscore of the
extension (`\w` includes `_`), while the spec's wording ("alphanumeric or
`.`") strips it. -/
theorem c5_counterexample :
    sanitize_filename "a.b_c" = "a.b_c" ∧
    sanitize_spec "a.b_c" = "a.bc" ∧
    sanitize_filename "a.b_c" ≠ sanitize_spec "a.b_c" := by
  decide

/-- C5 (amended): `sanitize` splits into stem and extension, keeps in the
stem exactly the alphanumeric characters, CJK ideographs and `- _ . `
(space), keeps in the extension exactly the alphanumeric characters,
the underscore, and `.`, and substitutes the fixed placeholders
`unnamed_file` / `.bin` for an empty stem / extension. -/
theorem c5_sanitize_matches_amended_spec (s : String) :
    sanitize_filename s = sanitize_spec_amended s := by
  have h1 : keepStem = specKeepStem := funext keepStem_eq_spec
  have h2 : keepExt = specKeepExtAmended := funext keepExt_eq_specAmended
  by_cases hs : s = ""
  · subst hs; decide
  · unfold sanitize_filename sanitize_spec_amended
    rw [if_neg hs, h1, h2]

/-! ## C6: totality and safety of the sanitizer -/

theorem sanitize_block_safe (n2 e2 : List Char)
    (hn : n2 = "unnamed_file".data ∨ ∀ c ∈ n2, keepStem c = true)
    (hne : n2 ≠ [])
    (he : e2 = ".bin".data ∨ ∀ c ∈ e2, keepExt c = true) :
    String.mk (n2 ++ e2) ≠ "" ∧
      ∀ c ∈ (String.mk (n2 ++ e2)).data, c ≠ '/' ∧ c ≠ '\\' := by
  constructor
  · intro hcon
    have hdat : n2 ++ e2 = ([] : List Char) := congrArg String.data hcon
    rcases List.append_eq_nil.1 hdat with ⟨h1, _⟩
    exact hne h1
  · intro c hc
    rcases List.mem_append.1 hc with hcl | hcr
    · rcases hn with h | h
      · have hall : ∀ x ∈ "unnamed_file".data, x ≠ '/' ∧ x ≠ '\\' := by decide
        exact hall c (h ▸ hcl)
      · exact keepStem_not_sep c (h c hcl)
    · rcases he with h | h
      · have hall : ∀ x ∈ ".bin".data, x ≠ '/' ∧ x ≠ '\\' := by decide
        exact hall c (h ▸ hcr)
      · exact keepExt_not_sep c (h c hcr)

/-- C6: `sanitize` is a total function (the embedding is a total Lean
function on all of `String`); its output is never empty and never
contains a path-separator character. -/
theorem c6_sanitize_total_safe (s : String) :
    sanitize_filename s ≠ "" ∧
      ∀ c ∈ (sanitize_filename s).data, c ≠ '/' ∧ c ≠ '\\' := by
  by_cases hs : s = ""
  · subst hs
    constructor
    · decide
    · intro c hc
      revert hc; revert c; decide
  · unfold sanitize_filename
    rw [if_neg hs]
    apply sanitize_block_safe
    · by_cases hn : (splitext s).1.data.filter keepStem = []
      · rw [if_pos hn]; left; rfl
      · rw [if_neg hn]; right; intro c hc; exact (List.mem_filter.1 hc).2
    · by_cases hn : (splitext s).1.data.filter keepStem = []
      · rw [if_pos hn]; decide
      · rw [if_neg hn]; exact hn
    · by_cases hn : (splitext s).2.data.filter keepExt = []
      · rw [if_pos hn]; left; rfl
      · rw [if_neg hn]; right; intro c hc; exact (List.mem_filter.1 hc).2

/-! ## C3: add with an empty name -/

/-- C3: when the name field is empty, `add_project` fails with the
validation message and leaves the whole state (database rows and
filesystem) unchanged; no file-save or insert step runs (empty trace). -/
theorem c3_add_empty_name_rejected (st : OpState) (stage remark marked uuidHex : String)
    (pd : ProjectData) (incoming : List IncomingFile) (dbFail : Bool)
    (h : pd.name = "") :
    add_project st stage pd remark marked incoming uuidHex dbFail =
      ("❌ 新增失败：项目名称不能为空", st, []) := by
  unfold add_project
  rw [if_pos h]

theorem c3_add_empty_name_rejected_witness :
    add_project ⟨[], []⟩ "储备项目"
        ⟨"", "", "", "", "", "", "", "", "", "", ""⟩ "备注" "normal"
        [⟨some ⟨"/tmp/a.txt"⟩, "20260101_120000", false⟩] "0123456789abcdef" false =
      ("❌ 新增失败：项目名称不能为空", ⟨[], []⟩, []) :=
  c3_add_empty_name_rejected ⟨[], []⟩ "储备项目" "备注" "normal" "0123456789abcdef"
    ⟨"", "", "", "", "", "", "", "", "", "", ""⟩
    [⟨some ⟨"/tmp/a.txt"⟩, "20260101_120000", false⟩] false rfl

theorem strContains_iff {l : List String} {a : String} :
    l.contains a = true ↔ a ∈ l := by
  simp [List.contains, List.elem_iff]

theorem mem_fsAdd_self (p : String) (fs : List String) : p ∈ fsAdd p fs := by
  unfold fsAdd
  by_cases h : fs.contains p
  · rw [if_pos h]; exact strContains_iff.1 h
  · rw [if_neg h]; exact List.mem_cons_self p fs

theorem mem_fsAdd_of_mem (p q : String) (fs : List String) (h : q ∈ fs) :
    q ∈ fsAdd p fs := by
  unfold fsAdd
  by_cases hc : fs.contains p
  · rw [if_pos hc]; exact h
  · rw [if_neg hc]; exact List.mem_cons_of_mem p h

/-! ## C9: the file store's save operation -/

/-- C9: `save_uploaded_file` copies (does not move) the source into
`stage/record_id/timestamp_sanitized-name` and returns that path relative
to the storage root; on an I/O error (and for a missing file object) it
returns a null result with the filesystem untouched, and by totality of
the embedding it never raises. -/
theorem c9_save_copies_and_fails_softly (f : UploadedFile)
    (stage pid ts : String) (fs : List String) :
    save_uploaded_file none stage pid ts false fs = (none, fs) ∧
    save_uploaded_file (some f) stage pid ts true fs = (none, fs) ∧
    (save_uploaded_file (some f) stage pid ts false fs).1 =
      some (stage ++ "/" ++ pid ++ "/" ++ (ts ++ "_" ++ sanitize_filename (pathName f.name))) ∧
    (stage ++ "/" ++ pid ++ "/" ++ (ts ++ "_" ++ sanitize_filename (pathName f.name)))
      ∈ (save_uploaded_file (some f) stage pid ts false fs).2 ∧
    (f.name ∈ fs → f.name ∈ (save_uploaded_file (some f) stage pid ts false fs).2) := by
  refine ⟨rfl, rfl, rfl, ?_, ?_⟩
  · exact mem_fsAdd_self _ _
  · intro h
    exact mem_fsAdd_of_mem _ _ _ h

theorem c9_save_copies_and_fails_softly_witness :
    "/tmp/a.txt" ∈ ["/tmp/a.txt"] ∧
    "/tmp/a.txt" ∈ (save_uploaded_file (some ⟨"/tmp/a.txt"⟩) "储备项目" "proj_01234567"
      "20260101_120000" false ["/tmp/a.txt"]).2 :=
  ⟨by decide,
    (c9_save_copies_and_fails_softly ⟨"/tmp/a.txt"⟩ "储备项目" "proj_01234567"
      "20260101_120000" ["/tmp/a.txt"]).2.2.2.2 (by decide)⟩

/-! ## C10: generated record ids -/

/-- C10: every generated id is `proj_` followed by exactly the first 8
characters of the (lowercase hexadecimal) uuid digest, total length 13;
and no check against existing rows precedes insertion — for any database
content, `add_project` (with a non-empty name and no commit failure)
reports success. -/
theorem c10_generated_id_shape (u : String) (st : OpState)
    (stage remark marked : String) (pd : ProjectData)
    (incoming : List IncomingFile)
    (hlen : u.data.length = 32)
    (hhex : ∀ c ∈ u.data, isLowerHex c = true)
    (hname : pd.name ≠ "") :
    (generate_project_id u).data.length = 13 ∧
    (generate_project_id u).data.take 5 = "proj_".data ∧
    ((generate_project_id u).data.drop 5).length = 8 ∧
    (∀ c ∈ (generate_project_id u).data.drop 5, isLowerHex c = true) ∧
    (add_project st stage pd remark marked incoming u false).1.data.head? = some '✅' := by
  have hdata : (generate_project_id u).data = "proj_".data ++ u.data.take 8 := rfl
  refine ⟨?_, ?_, ?_, ?_, ?_⟩
  · rw [hdata]
    simp [List.length_take, hlen]
  · rw [hdata]
    rfl
  · rw [hdata]
    have : ("proj_".data ++ u.data.take 8).drop 5 = u.data.take 8 := rfl
    rw [this]
    simp [List.length_take, hlen]
  · rw [hdata]
    have hdrop : ("proj_".data ++ u.data.take 8).drop 5 = u.data.take 8 := rfl
    rw [hdrop]
    intro c hc
    exact hhex c (List.take_subset 8 u.data hc)
  · unfold add_project
    rw [if_neg hname]
    simp only []
    exact head_append_lit _ (head_append_lit _ (head_append_lit _ (by decide)))

theorem c10_generated_id_shape_witness :
    ("0123456789abcdef0123456789abcdef" : String).data.length = 32 ∧
    (generate_project_id "0123456789abcdef0123456789abcdef").data.length = 13 ∧
    (add_project ⟨[], []⟩ "储备项目" ⟨"测试项目", "", "", "", "", "", "", "", "", "", ""⟩
      "" "normal" [] "0123456789abcdef0123456789abcdef" false).1.data.head? = some '✅' := by
  have h := c10_generated_id_shape "0123456789abcdef0123456789abcdef" ⟨[], []⟩
    "储备项目" "" "normal" ⟨"测试项目", "", "", "", "", "", "", "", "", "", ""⟩ []
    (by decide) (by decide) (by decide)
  exact ⟨by decide, h.1, h.2.2.2.2⟩

/-! ## Path and store lemmas -/

theorem strMk_data (s : String) : String.mk s.data = s := rfl

theorem path3_data (a b c : String) :
    (a ++ "/" ++ b ++ "/" ++ c).data = a.data ++ '/' :: (b.data ++ '/' :: c.data) := by
  have h : ("/" : String).data = ['/'] := rfl
  simp [String.data_append, h]

theorem noSlash_iff {s : String} : noSlash s = true ↔ ∀ x ∈ s.data, ¬x = '/' := by
  simp [noSlash, List.contains, List.elem_iff]
  constructor
  · intro h x hx hxe
    exact h (hxe ▸ hx)
  · intro h hmem
    exact h '/' hmem rfl

theorem takeWhile_no_slash (l r : List Char) (h : ∀ x ∈ l, ¬x = '/') :
    (l ++ '/' :: r).takeWhile (fun c => !(c == '/')) = l := by
  induction l with
  | nil => simp [List.takeWhile_cons]
  | cons a t ih =>
    have ha : ¬a = '/' := h a (List.mem_cons_self a t)
    have ht : ∀ x ∈ t, ¬x = '/' := fun x hx => h x (List.mem_cons_of_mem a hx)
    simp [List.takeWhile_cons, ha, ih ht]

theorem dropWhile_no_slash (l r : List Char) (h : ∀ x ∈ l, ¬x = '/') :
    (l ++ '/' :: r).dropWhile (fun c => !(c == '/')) = '/' :: r := by
  induction l with
  | nil => simp [List.dropWhile_cons]
  | cons a t ih =>
    have ha : ¬a = '/' := h a (List.mem_cons_self a t)
    have ht : ∀ x ∈ t, ¬x = '/' := fun x hx => h x (List.mem_cons_of_mem a hx)
    simp [List.dropWhile_cons, ha, ih ht]

theorem stageSeg_mk3 (a b c : String) (ha : noSlash a = true) :
    stageSeg (a ++ "/" ++ b ++ "/" ++ c) = a := by
  unfold stageSeg
  rw [path3_data, takeWhile_no_slash _ _ (noSlash_iff.1 ha), strMk_data]

theorem idSeg_mk3 (a b c : String) (ha : noSlash a = true) (hb : noSlash b = true) :
    idSeg (a ++ "/" ++ b ++ "/" ++ c) = b := by
  unfold idSeg
  rw [path3_data, dropWhile_no_slash _ _ (noSlash_iff.1 ha)]
  have hdrop1 : (('/' :: (b.data ++ '/' :: c.data)) : List Char).drop 1 =
      b.data ++ '/' :: c.data := rfl
  rw [hdrop1, takeWhile_no_slash _ _ (noSlash_iff.1 hb), strMk_data]

theorem findProject_id {db : List Project} {pid : String} {p : Project}
    (h : findProject db pid = some p) : p.id = pid := by
  induction db with
  | nil => cases h
  | cons q rest ih =>
    unfold findProject at h
    by_cases hq : (q.id == pid) = true
    · rw [if_pos hq] at h
      injection h with h'
      subst h'
      exact eq_of_beq hq
    · rw [if_neg hq] at h
      exact ih h

theorem findProject_replaceById {db : List Project} {pid : String} {p : Project}
    (x : Project) (h : findProject db pid = some p) (hx : (x.id == pid) = true) :
    findProject (replaceById db pid x) pid = some x := by
  induction db with
  | nil => cases h
  | cons q rest ih =>
    by_cases hq : (q.id == pid) = true
    · simp [replaceById, hq, findProject, hx]
    · have h' : findProject rest pid = some p := by
        simpa [findProject, hq] using h
      simp [replaceById, hq, findProject, ih h']

theorem replaceById_self {db : List Project} {pid : String} {p : Project}
    (h : findProject db pid = some p) : replaceById db pid p = db := by
  induction db with
  | nil => rfl
  | cons q rest ih =>
    simp only [replaceById]
    by_cases hq : (q.id == pid) = true
    · rw [if_pos hq]
      have h' : q = p := by
        have hh := h
        simp only [findProject, if_pos hq, Option.some.injEq] at hh
        exact hh
      rw [h']
    · rw [if_neg hq]
      have h' : findProject rest pid = some p := by
        simp only [findProject, if_neg hq] at h
        exact h
      rw [ih h']

theorem findProject_none_of_not_any {db : List Project} {pid : String}
    (h : db.any (fun q => q.id == pid) = false) : findProject db pid = none := by
  induction db with
  | nil => rfl
  | cons q rest ih =>
    rw [List.any_cons] at h
    rcases Bool.or_eq_false_iff.1 h with ⟨h1, h2⟩
    simp [findProject, h1, ih h2]

theorem findProject_deleteRow_none {db : List Project} (pid : String)
    (hu : uniqueIds db = true) : findProject (deleteRow db pid) pid = none := by
  induction db with
  | nil => rfl
  | cons q rest ih =>
    unfold uniqueIds at hu
    rw [Bool.and_eq_true] at hu
    obtain ⟨h1, h2⟩ := hu
    have hany0 : rest.any (fun r => r.id == q.id) = false := by
      cases hb : rest.any (fun r => r.id == q.id)
      · rfl
      · rw [hb] at h1
        exact absurd h1 (by decide)
    by_cases hq : (q.id == pid) = true
    · have hany : rest.any (fun r => r.id == pid) = false := by
        rw [← eq_of_beq hq]
        exact hany0
      simp [deleteRow, hq, findProject_none_of_not_any hany]
    · simp [deleteRow, hq, findProject, ih h2]

theorem removeFilesLoop_subset {files fs : List String} {q : String}
    (h : q ∈ removeFilesLoop files fs) : q ∈ fs := by
  induction files generalizing fs with
  | nil => exact h
  | cons rel rest ih =>
    unfold removeFilesLoop at h
    exact List.mem_filter.1 (ih h) |>.1

theorem moveFilesLoop_shape (ns pid : String) (files : List String) :
    ∀ (fs : List String) (q : String), q ∈ (moveFilesLoop files fs ns pid).1 →
      ∃ rel, q = ns ++ "/" ++ pid ++ "/" ++ pathName rel := by
  induction files with
  | nil =>
    intro fs q hq
    simp [moveFilesLoop] at hq
  | cons rel rest ih =>
    intro fs q hq
    by_cases hc : fs.contains rel = true
    · simp only [moveFilesLoop, if_pos hc] at hq
      rcases List.mem_cons.1 hq with h | h
      · exact ⟨rel, h⟩
      · exact ih _ q h
    · simp only [moveFilesLoop, if_neg hc] at hq
      exact ih _ q hq

theorem moveFilesLoop_id (stg pid : String) (files fs : List String)
    (hinv : ∀ rel ∈ files,
      rel = stg ++ "/" ++ pid ++ "/" ++ pathName rel ∧ fs.contains rel = true) :
    moveFilesLoop files fs stg pid = (files, fs) := by
  induction files with
  | nil => rfl
  | cons rel rest ih =>
    obtain ⟨hshape, hcont⟩ := hinv rel (List.mem_cons_self rel rest)
    have hrest : ∀ r ∈ rest,
        r = stg ++ "/" ++ pid ++ "/" ++ pathName r ∧ fs.contains r = true :=
      fun r hr => hinv r (List.mem_cons_of_mem rel hr)
    simp only [moveFilesLoop, if_pos hcont]
    rw [← hshape]
    have hmv : fsMove rel rel fs = fs := by simp [fsMove]
    rw [hmv, ih hrest]

theorem update_stage_eq (st : OpState) (pid s2 : String) (p : Project)
    (hp : findProject st.db pid = some p) :
    update_project_stage st pid s2 false =
      ("✅ 项目已从「" ++ p.stage ++ "」移至「" ++ s2 ++ "」",
        { db := replaceById st.db pid (movedProject p st.fs s2 pid),
          fs := (movedPair p st.fs s2 pid).2 }) := by
  unfold update_project_stage
  rw [hp]
  rfl

/-! ## C1: the path invariant after a successful move -/

/-- C1: after a successful `move(record_id, s2)` the stored record has
stage `s2`, and every path in its stored attachment list has its stage
segment equal to `s2` and its id segment equal to the record id (paths
have the form `stage/id/filename`). -/
theorem c1_move_restores_invariant (st : OpState) (pid s2 : String) (p : Project)
    (hp : findProject st.db pid = some p)
    (hs2 : noSlash s2 = true) (hpid : noSlash pid = true) :
    ∃ r, findProject (update_project_stage st pid s2 false).2.db pid = some r ∧
      r.stage = s2 ∧
      ∀ path ∈ r.files, stageSeg path = s2 ∧ idSeg path = pid := by
  have hid : p.id = pid := findProject_id hp
  rw [update_stage_eq st pid s2 p hp]
  refine ⟨movedProject p st.fs s2 pid,
    findProject_replaceById _ hp (by simp [movedProject, hid]), rfl, ?_⟩
  intro path hpath
  simp only [movedProject, movedPair] at hpath
  by_cases he : p.files.isEmpty = true
  · rw [if_pos he] at hpath
    have hnil : p.files = [] := List.isEmpty_iff.1 he
    rw [hnil] at hpath
    cases hpath
  · rw [if_neg he] at hpath
    obtain ⟨rel, hrel⟩ := moveFilesLoop_shape s2 pid p.files st.fs path hpath
    subst hrel
    exact ⟨stageSeg_mk3 s2 pid (pathName rel) hs2,
      idSeg_mk3 s2 pid (pathName rel) hs2 hpid⟩

theorem c1_move_restores_invariant_witness :
    noSlash "立项阶段" = true ∧ noSlash "proj_aa" = true ∧
    (∃ r, findProject (update_project_stage
        ⟨[⟨"proj_aa", "Alpha", "储备项目", "", "", "", "", "", "", "", "", "", "", "", "normal",
          ["储备项目/proj_aa/f.txt"]⟩], ["储备项目/proj_aa/f.txt"]⟩
        "proj_aa" "立项阶段" false).2.db "proj_aa" = some r ∧
      r.stage = "立项阶段" ∧
      ∀ path ∈ r.files, stageSeg path = "立项阶段" ∧ idSeg path = "proj_aa") :=
  ⟨by decide, by decide,
    c1_move_restores_invariant
      ⟨[⟨"proj_aa", "Alpha", "储备项目", "", "", "", "", "", "", "", "", "", "", "", "normal",
        ["储备项目/proj_aa/f.txt"]⟩], ["储备项目/proj_aa/f.txt"]⟩
      "proj_aa" "立项阶段"
      ⟨"proj_aa", "Alpha", "储备项目", "", "", "", "", "", "", "", "", "", "", "", "normal",
        ["储备项目/proj_aa/f.txt"]⟩
      (by decide) (by decide) (by decide)⟩

/-! ## C2: moving to the current stage is a no-op -/

/-- C2: for a record whose stored attachment paths satisfy the data-model
invariant (paths of the form `stage/pid/filename` whose files exist on
disk), `move(record_id, current_stage)` succeeds and leaves the record
row, the whole database and the filesystem literally unchanged. -/
theorem c2_move_same_stage_idempotent (st : OpState) (pid : String) (p : Project)
    (hp : findProject st.db pid = some p)
    (hinv : ∀ rel ∈ p.files,
      rel = p.stage ++ "/" ++ pid ++ "/" ++ pathName rel ∧ st.fs.contains rel = true) :
    update_project_stage st pid p.stage false =
      ("✅ 项目已从「" ++ p.stage ++ "」移至「" ++ p.stage ++ "」", st) := by
  rw [update_stage_eq st pid p.stage p hp]
  have hmoved : movedPair p st.fs p.stage pid = (p.files, st.fs) := by
    unfold movedPair
    by_cases he : p.files.isEmpty = true
    · rw [if_pos he]
    · rw [if_neg he]
      exact moveFilesLoop_id p.stage pid p.files st.fs hinv
  have hproj : movedProject p st.fs p.stage pid = p := by
    unfold movedProject
    rw [hmoved]
  rw [hproj, hmoved, replaceById_self hp]

theorem c2_move_same_stage_idempotent_witness :
    update_project_stage
      ⟨[⟨"proj_aa", "Alpha", "储备项目", "", "", "", "", "", "", "", "", "", "", "", "normal",
        ["储备项目/proj_aa/f.txt"]⟩], ["储备项目/proj_aa/f.txt"]⟩
      "proj_aa" "储备项目" false =
    ("✅ 项目已从「" ++ "储备项目" ++ "」移至「" ++ "储备项目" ++ "」",
      ⟨[⟨"proj_aa", "Alpha", "储备项目", "", "", "", "", "", "", "", "", "", "", "", "normal",
        ["储备项目/proj_aa/f.txt"]⟩], ["储备项目/proj_aa/f.txt"]⟩) :=
  c2_move_same_stage_idempotent
    ⟨[⟨"proj_aa", "Alpha", "储备项目", "", "", "", "", "", "", "", "", "", "", "", "normal",
      ["储备项目/proj_aa/f.txt"]⟩], ["储备项目/proj_aa/f.txt"]⟩
    "proj_aa"
    ⟨"proj_aa", "Alpha", "储备项目", "", "", "", "", "", "", "", "", "", "", "", "normal",
      ["储备项目/proj_aa/f.txt"]⟩
    (by decide) (by decide)

/-! ## C4: delete removes the record and its directory -/

theorem delete_project_eq (st : OpState) (pid : String) (p : Project)
    (hp : findProject st.db pid = some p) :
    delete_project st pid false =
      ("✅ 项目「" ++ p.name ++ "」已删除！",
        ⟨deleteRow st.db pid, delete_project_files st.fs p⟩) := by
  unfold delete_project
  rw [hp]
  rfl

/-- C4: deleting an existing record (with unique ids and no orphan files
below its `stage/id` directory) yields the success message, a subsequent
`detail` reports not-found, and no file below `stage/id` remains. -/
theorem c4_delete_removes_record_and_directory (st : OpState) (pid : String)
    (p : Project)
    (hp : findProject st.db pid = some p)
    (hu : uniqueIds st.db = true)
    (horph : ∀ q ∈ st.fs,
      pathUnder (p.stage ++ "/" ++ pid ++ "/") q = true → q ∈ p.files) :
    (delete_project st pid false).1 = "✅ 项目「" ++ p.name ++ "」已删除！" ∧
    (get_project_detail (delete_project st pid false).2 pid false).1 = "❌ 项目不存在" ∧
    ∀ q ∈ (delete_project st pid false).2.fs,
      ¬pathUnder (p.stage ++ "/" ++ pid ++ "/") q = true := by
  have hid : p.id = pid := findProject_id hp
  have hdel := delete_project_eq st pid p hp
  refine ⟨by rw [hdel], ?_, ?_⟩
  · rw [hdel]
    have hnone := findProject_deleteRow_none pid hu
    simp [get_project_detail, hnone]
  · rw [hdel]
    intro q hq
    unfold delete_project_files at hq
    by_cases he : p.files.isEmpty = true
    · rw [if_pos he] at hq
      intro hsw
      have hmem := horph q hq hsw
      rw [List.isEmpty_iff.1 he] at hmem
      cases hmem
    · rw [if_neg he] at hq
      have h2 := (List.mem_filter.1 hq).2
      rw [hid] at h2
      intro hsw
      rw [hsw] at h2
      exact absurd h2 (by decide)

theorem c4_delete_removes_record_and_directory_witness :
    (delete_project
      ⟨[⟨"proj_aa", "Alpha", "储备项目", "", "", "", "", "", "", "", "", "", "", "", "normal",
        ["储备项目/proj_aa/f.txt"]⟩], ["储备项目/proj_aa/f.txt"]⟩
      "proj_aa" false).1 = "✅ 项目「" ++ "Alpha" ++ "」已删除！" ∧
    (get_project_detail (delete_project
      ⟨[⟨"proj_aa", "Alpha", "储备项目", "", "", "", "", "", "", "", "", "", "", "", "normal",
        ["储备项目/proj_aa/f.txt"]⟩], ["储备项目/proj_aa/f.txt"]⟩
      "proj_aa" false).2 "proj_aa" false).1 = "❌ 项目不存在" ∧
    ∀ q ∈ (delete_project
      ⟨[⟨"proj_aa", "Alpha", "储备项目", "", "", "", "", "", "", "", "", "", "", "", "normal",
        ["储备项目/proj_aa/f.txt"]⟩], ["储备项目/proj_aa/f.txt"]⟩
      "proj_aa" false).2.fs,
      ¬pathUnder ("储备项目" ++ "/" ++ "proj_aa" ++ "/") q = true :=
  c4_delete_removes_record_and_directory
    ⟨[⟨"proj_aa", "Alpha", "储备项目", "", "", "", "", "", "", "", "", "", "", "", "normal",
      ["储备项目/proj_aa/f.txt"]⟩], ["储备项目/proj_aa/f.txt"]⟩
    "proj_aa"
    ⟨"proj_aa", "Alpha", "储备项目", "", "", "", "", "", "", "", "", "", "", "", "normal",
      ["储备项目/proj_aa/f.txt"]⟩
    (by decide) (by decide) (by decide)

/-! ## C7: files are saved before the row is inserted -/

theorem saveLoop_no_insert (stage pid : String) (incoming : List IncomingFile) :
    ∀ fs : List String, Event.dbInsert ∉ (saveLoop incoming stage pid fs).2.2 := by
  induction incoming with
  | nil =>
    intro fs
    simp [saveLoop]
  | cons inc rest ih =>
    intro fs
    unfold saveLoop
    cases hf : inc.file with
    | none => exact ih fs
    | some f =>
      dsimp only
      cases hr : (save_uploaded_file (some f) stage pid inc.timestamp inc.ioFail fs).1 with
      | none => exact ih _
      | some pth =>
        intro hmem
        rcases List.mem_cons.1 hmem with h | h
        · cases h
        · exact ih _ h

theorem last_single_order {α : Type} (l : List α) (x : α) (hx : x ∉ l)
    (i j : Nat) (hi : i < (l ++ [x]).length) (hj : j < (l ++ [x]).length)
    (hne : (l ++ [x]).get ⟨i, hi⟩ ≠ x) (hjx : (l ++ [x]).get ⟨j, hj⟩ = x) :
    i < j := by
  induction l generalizing i j with
  | nil =>
    have hi0 : i = 0 := Nat.lt_one_iff.1 hi
    subst hi0
    exact absurd rfl hne
  | cons a t ih =>
    have ha : a ≠ x := fun h => hx (h ▸ List.mem_cons_self a t)
    have hx' : x ∉ t := fun h => hx (List.mem_cons_of_mem a h)
    cases i with
    | zero =>
      cases j with
      | zero => exact absurd hjx ha
      | succ j' => exact Nat.succ_pos j'
    | succ i' =>
      cases j with
      | zero => exact absurd hjx ha
      | succ j' =>
        have hi' : i' < (t ++ [x]).length := Nat.lt_of_succ_lt_succ hi
        have hj' : j' < (t ++ [x]).length := Nat.lt_of_succ_lt_succ hj
        exact Nat.succ_lt_succ (ih hx' i' j' hi' hj' hne hjx)

/-- C7: in `add_project`, every attachment write precedes the insertion
of the database row in the operation's step sequence. -/
theorem c7_files_saved_before_insert (st : OpState)
    (stage remark marked uuidHex : String) (pd : ProjectData)
    (incoming : List IncomingFile) (dbFail : Bool) (tr : List Event)
    (htr : (add_project st stage pd remark marked incoming uuidHex dbFail).2.2 = tr)
    (i j : Nat) (hi : i < tr.length) (hj : j < tr.length) (f : String)
    (hsi : tr.get ⟨i, hi⟩ = Event.saveFile f)
    (hsj : tr.get ⟨j, hj⟩ = Event.dbInsert) : i < j := by
  by_cases hname : pd.name = ""
  · have h0 : tr = [] := by
      rw [← htr]
      unfold add_project
      rw [if_pos hname]
    subst h0
    cases hi
  · have h1 : tr = (saveLoop incoming stage (generate_project_id uuidHex) st.fs).2.2 ++
        [Event.dbInsert] := by
      rw [← htr]
      unfold add_project
      rw [if_neg hname]
      cases dbFail <;> rfl
    subst h1
    refine last_single_order _ _ (saveLoop_no_insert _ _ _ _) i j hi hj ?_ hsj
    rw [hsi]
    intro h
    cases h

theorem c7_files_saved_before_insert_witness : (0 : Nat) < 1 :=
  c7_files_saved_before_insert ⟨[], []⟩ "储备项目" "" "normal" "0123456789abcdef"
    ⟨"Alpha", "", "", "", "", "", "", "", "", "", ""⟩
    [⟨some ⟨"/tmp/a.txt"⟩, "20260101_120000", false⟩] false
    [Event.saveFile "储备项目/proj_01234567/20260101_120000_a.txt", Event.dbInsert]
    (by decide) 0 1 (by decide) (by decide) "储备项目/proj_01234567/20260101_120000_a.txt"
    (by decide) (by decide)

/-! ## C8: transactional rollback and discriminated results -/

/-- C8: each write operation is wrapped in the transaction of `get_db`
(commit on success, rollback leaving the database rows unchanged on any
failure), and every manager operation returns a discriminated result — a
message starting with the success mark or the failure mark — instead of
raising; the stage listing returns the empty list on an underlying error
and `detail` returns a failure message. -/
theorem c8_transactions_and_results (st : OpState)
    (pid new_stage stage remark marked uuidHex : String) (pd : ProjectData)
    (incoming : List IncomingFile) (dbFail : Bool) :
    ((add_project st stage pd remark marked incoming uuidHex dbFail).1.data.head? = some '✅' ∨
      (add_project st stage pd remark marked incoming uuidHex dbFail).1.data.head? = some '❌') ∧
    ((add_project st stage pd remark marked incoming uuidHex dbFail).1.data.head? = some '❌' →
      (add_project st stage pd remark marked incoming uuidHex dbFail).2.1.db = st.db) ∧
    ((update_project_stage st pid new_stage dbFail).1.data.head? = some '✅' ∨
      (update_project_stage st pid new_stage dbFail).1.data.head? = some '❌') ∧
    ((update_project_stage st pid new_stage dbFail).1.data.head? = some '❌' →
      (update_project_stage st pid new_stage dbFail).2.db = st.db) ∧
    ((delete_project st pid dbFail).1.data.head? = some '✅' ∨
      (delete_project st pid dbFail).1.data.head? = some '❌') ∧
    ((delete_project st pid dbFail).1.data.head? = some '❌' →
      (delete_project st pid dbFail).2.db = st.db) ∧
    get_projects_by_stage st stage true = [] ∧
    (get_project_detail st pid true).1.data.head? = some '❌' := by
  have hdet : (get_project_detail st pid true).1.data.head? = some '❌' := by
    have hm : (get_project_detail st pid true).1 = "❌ 查询失败：" ++ dbError := by
      unfold get_project_detail
      rw [if_pos rfl]
    rw [hm]
    exact head_append_lit _ (by decide)
  have hlist : get_projects_by_stage st stage true = [] := by
    unfold get_projects_by_stage
    rw [if_pos rfl]
  have hadd : ((add_project st stage pd remark marked incoming uuidHex dbFail).1.data.head? = some '✅' ∨
      (add_project st stage pd remark marked incoming uuidHex dbFail).1.data.head? = some '❌') ∧
      ((add_project st stage pd remark marked incoming uuidHex dbFail).1.data.head? = some '❌' →
        (add_project st stage pd remark marked incoming uuidHex dbFail).2.1.db = st.db) := by
    by_cases hname : pd.name = ""
    · have he : add_project st stage pd remark marked incoming uuidHex dbFail =
          ("❌ 新增失败：项目名称不能为空", st, []) := by
        unfold add_project
        rw [if_pos hname]
      rw [he]
      exact ⟨Or.inr rfl, fun _ => rfl⟩
    · cases dbFail with
      | true =>
        have hm : (add_project st stage pd remark marked incoming uuidHex true).1 =
            "❌ 新增失败：" ++ dbError := by
          unfold add_project
          rw [if_neg hname]
          rfl
        have hdb : (add_project st stage pd remark marked incoming uuidHex true).2.1.db =
            st.db := by
          unfold add_project
          rw [if_neg hname]
          rfl
        rw [hm]
        exact ⟨Or.inr (head_append_lit _ (by decide)), fun _ => hdb⟩
      | false =>
        have hm : (add_project st stage pd remark marked incoming uuidHex false).1 =
            "✅ 项目「" ++ pd.name ++ "」新增成功！ID：" ++ generate_project_id uuidHex := by
          unfold add_project
          rw [if_neg hname]
          rfl
        rw [hm]
        have hok : ("✅ 项目「" ++ pd.name ++ "」新增成功！ID：" ++
            generate_project_id uuidHex).data.head? = some '✅' :=
          head_append_lit _ (head_append_lit _ (head_append_lit _ (by decide)))
        refine ⟨Or.inl hok, fun hcon => ?_⟩
        rw [hok] at hcon
        exact absurd hcon (by decide)
  have hupd : ((update_project_stage st pid new_stage dbFail).1.data.head? = some '✅' ∨
      (update_project_stage st pid new_stage dbFail).1.data.head? = some '❌') ∧
      ((update_project_stage st pid new_stage dbFail).1.data.head? = some '❌' →
        (update_project_stage st pid new_stage dbFail).2.db = st.db) := by
    rcases hf : findProject st.db pid with _ | p
    · have he : update_project_stage st pid new_stage dbFail = ("❌ 项目不存在", st) := by
        unfold update_project_stage
        rw [hf]
      rw [he]
      exact ⟨Or.inr rfl, fun _ => rfl⟩
    · cases dbFail with
      | true =>
        have hm : (update_project_stage st pid new_stage true).1 =
            "❌ 阶段更新失败：" ++ dbError := by
          unfold update_project_stage
          rw [hf]
          rfl
        have hdb : (update_project_stage st pid new_stage true).2.db = st.db := by
          unfold update_project_stage
          rw [hf]
          rfl
        rw [hm]
        exact ⟨Or.inr (head_append_lit _ (by decide)), fun _ => hdb⟩
      | false =>
        rw [update_stage_eq st pid new_stage p hf]
        have hok : ("✅ 项目已从「" ++ p.stage ++ "」移至「" ++ new_stage ++ "」").data.head? =
            some '✅' :=
          head_append_lit _ (head_append_lit _ (head_append_lit _ (head_append_lit _ (by decide))))
        refine ⟨Or.inl hok, fun hcon => ?_⟩
        have hcon2 : ("✅ 项目已从「" ++ p.stage ++ "」移至「" ++ new_stage ++ "」").data.head? =
            some '❌' := hcon
        rw [hok] at hcon2
        exact absurd hcon2 (by decide)
  have hdel : ((delete_project st pid dbFail).1.data.head? = some '✅' ∨
      (delete_project st pid dbFail).1.data.head? = some '❌') ∧
      ((delete_project st pid dbFail).1.data.head? = some '❌' →
        (delete_project st pid dbFail).2.db = st.db) := by
    rcases hf : findProject st.db pid with _ | p
    · have he : delete_project st pid dbFail = ("❌ 项目不存在", st) := by
        unfold delete_project
        rw [hf]
      rw [he]
      exact ⟨Or.inr rfl, fun _ => rfl⟩
    · cases dbFail with
      | true =>
        have hm : (delete_project st pid true).1 = "❌ 删除失败：" ++ dbError := by
          unfold delete_project
          rw [hf]
          rfl
        have hdb : (delete_project st pid true).2.db = st.db := by
          unfold delete_project
          rw [hf]
          rfl
        rw [hm]
        exact ⟨Or.inr (head_append_lit _ (by decide)), fun _ => hdb⟩
      | false =>
        rw [delete_project_eq st pid p hf]
        have hok : ("✅ 项目「" ++ p.name ++ "」已删除！").data.head? = some '✅' :=
          head_append_lit _ (head_append_lit _ (by decide))
        refine ⟨Or.inl hok, fun hcon => ?_⟩
        have hcon2 : ("✅ 项目「" ++ p.name ++ "」已删除！").data.head? = some '❌' := hcon
        rw [hok] at hcon2
        exact absurd hcon2 (by decide)
  exact ⟨hadd.1, hadd.2, hupd.1, hupd.2, hdel.1, hdel.2, hlist, hdet⟩

theorem c8_transactions_and_results_witness :
    (add_project ⟨[], []⟩ "储备项目" ⟨"Alpha", "", "", "", "", "", "", "", "", "", ""⟩
      "" "normal" [] "0123456789abcdef" true).1.data.head? = some '❌' ∧
    (add_project ⟨[], []⟩ "储备项目" ⟨"Alpha", "", "", "", "", "", "", "", "", "", ""⟩
      "" "normal" [] "0123456789abcdef" true).2.1.db = [] := by
  have h := c8_transactions_and_results ⟨[], []⟩ "proj_aa" "立项阶段" "储备项目" "" "normal"
    "0123456789abcdef" ⟨"Alpha", "", "", "", "", "", "", "", "", "", ""⟩ [] true
  have hmsg : (add_project ⟨[], []⟩ "储备项目" ⟨"Alpha", "", "", "", "", "", "", "", "", "", ""⟩
      "" "normal" [] "0123456789abcdef" true).1.data.head? = some '❌' := by decide
  exact ⟨hmsg, h.2.1 hmsg⟩
